import Mathlib

/-!
Shallow embedding of the numcodecs build orchestrator (`setup.py`).

The script probes the host (CPU flags, environment variables, OS name,
platform, machine architecture), assembles one extension descriptor per
optional native component, precompiles architecture-specific assembly
sources, and drives the standard build step with per-component error
conversion.  Effects are modelled explicitly:

* environment / CPU introspection: a `Host` record threaded into every
  definition (the script computes these once at module load);
* the filesystem seen by `glob` / `os.path.isdir` / `os.remove`: an `Fs`
  record listing the existing paths, with glob patterns matched by a
  `fnmatch`-style matcher where `*` matches any run of non-separator
  characters;
* the `pkg-config` subprocess: an oracle giving, per mode flag and package
  name, either the decoded stdout or `none` for a non-zero exit /
  missing tool (where `subprocess.check_output` raises);
* the compiler toolchain invoked by the wrapped `build_ext` machinery: a
  `Toolchain` oracle giving, per invocation, the Python error class raised
  (or `none` for success).
-/

namespace NumcodecsSetup

/-- Python error classes relevant to the build driver: the members of
`setuptools.errors` named in `setup.py` plus `IOError`, `ValueError`, and a
stand-in for any unrelated error class. -/
inductive PyError where
  | cCompilerError
  | execError
  | platformError
  | ioError
  | valueError
  | otherError
deriving DecidableEq

/-- Host state sampled once at module load: `cpuinfo.get_cpu_info()['flags']`,
the set of defined environment variable names, `os.name`, `sys.platform`,
`cpuinfo.platform.machine()`, and the path returned by
`numpy.get_include()`. -/
structure Host where
  cpuFlags : List String
  environ : List String
  osName : String
  sysPlatform : String
  machine : String
  numpyInclude : String
deriving DecidableEq

/-- `have_sse2 = 'sse2' in flags` (setup.py line 19). -/
def have_sse2 (h : Host) : Bool := h.cpuFlags.contains "sse2"

/-- `have_avx2 = 'avx2' in flags` (setup.py line 20). -/
def have_avx2 (h : Host) : Bool := h.cpuFlags.contains "avx2"

/-- `disable_sse2 = 'DISABLE_NUMCODECS_SSE2' in os.environ` (line 21). -/
def disable_sse2 (h : Host) : Bool := h.environ.contains "DISABLE_NUMCODECS_SSE2"

/-- `disable_avx2 = 'DISABLE_NUMCODECS_AVX2' in os.environ` (line 22). -/
def disable_avx2 (h : Host) : Bool := h.environ.contains "DISABLE_NUMCODECS_AVX2"

/-- `have_cflags = 'CFLAGS' in os.environ` (line 25). -/
def have_cflags (h : Host) : Bool := h.environ.contains "CFLAGS"

/-- The module-level `base_compile_args` list (setup.py lines 26-42): empty
when the user set `CFLAGS`; otherwise, on POSIX, one flag per feature
(`-mno-xxx` when disabled, `-mxxx` when detected); finally on macOS
`-stdlib=libc++` is appended unconditionally. -/
def base_compile_args (h : Host) : List String :=
  (if have_cflags h then
    []
  else if h.osName = "posix" then
    (if disable_sse2 h then ["-mno-sse2"]
     else if have_sse2 h then ["-msse2"]
     else [])
    ++
    (if disable_avx2 h then ["-mno-avx2"]
     else if have_avx2 h then ["-mavx2"]
     else [])
  else [])
  ++ (if h.sysPlatform = "darwin" then ["-stdlib=libc++"] else [])

/-- One path segment of a glob pattern matched against one path segment, with
`*` matching any (possibly empty) run of characters, as in `fnmatch`; the
patterns in `setup.py` use no other metacharacter. -/
def segMatch : List Char → List Char → Bool
  | [], cs => cs.isEmpty
  | p :: pt, cs =>
    if p = '*' then
      cs.tails.any (fun s => segMatch pt s)
    else
      match cs with
      | [] => false
      | c :: ct => (p == c) && segMatch pt ct

/-- Splits a character list at every `/`, the path-separator structure that
`glob` matches segment by segment (`*` does not cross a separator). -/
def splitSlash (l : List Char) : List (List Char) :=
  match l with
  | [] => [[]]
  | c :: cs =>
    match splitSlash cs with
    | [] => [[]]
    | seg :: rest => if c = '/' then [] :: seg :: rest else (c :: seg) :: rest

/-- Rejoins path segments with `/`, the inverse of `splitSlash`. -/
def joinSlash (segs : List (List Char)) : List Char :=
  match segs with
  | [] => []
  | [seg] => seg
  | seg :: s2 :: rest => seg ++ '/' :: joinSlash (s2 :: rest)

/-- Glob-pattern match of a whole path: same number of `/`-separated
segments, each pattern segment matching the corresponding path segment. -/
def pathMatch (pat path : String) : Bool :=
  let ps := splitSlash pat.data
  let ss := splitSlash path.data
  ps.length == ss.length && (ps.zip ss).all fun z => segMatch z.1 z.2

/-- The filesystem visible to `setup.py`: the existing paths (files and
directories) that `glob` can return, and which of them are directories
(`os.path.isdir`). -/
structure Fs where
  entries : List String
  dirs : List String
deriving DecidableEq

/-- `glob(pattern)`: the existing paths matching the pattern, in listing
order. -/
def glob (fs : Fs) (pat : String) : List String :=
  fs.entries.filter (fun p => pathMatch pat p)

/-- A `setuptools.Extension` descriptor as constructed by `setup.py`: name,
sources, include directories, preprocessor macro definitions (name, value),
extra compile arguments, extra link arguments and extra precompiled
objects. -/
structure Extension where
  name : String
  sources : List String
  include_dirs : List String := []
  define_macros : List (String × String) := []
  extra_compile_args : List String := []
  extra_link_args : List String := []
  extra_objects : List String := []
deriving DecidableEq

/-- `Package = namedtuple('Package', 'cflags libs')` (setup.py line 55). -/
structure Package where
  cflags : List String
  libs : List String
deriving DecidableEq

/-- The `pkg-config` subprocess: given the mode flag (`--cflags` / `--libs`)
and the package name, either the decoded stdout (`some`) or `none` when the
process exits non-zero or the tool is absent, where
`subprocess.check_output` raises. -/
structure PkgcOracle where
  run : String → String → Option String

/-- The uncaught exception from `subprocess.check_output`
(`CalledProcessError` on non-zero exit, `FileNotFoundError` when `pkg-config`
is absent), recorded with the package being resolved. -/
structure CalledProcessError where
  pkg : String
deriving DecidableEq

/-- `shlex.split` applied to pkg-config output, which is unquoted
whitespace-separated flags: whitespace tokenization dropping empty tokens. -/
def shlexSplit (s : String) : List String :=
  (s.split Char.isWhitespace).filter (fun t => !t.isEmpty)

/-- `pkgconfig(name)` (setup.py lines 58-61): runs `pkg-config --cflags name`
then `pkg-config --libs name`, propagating the subprocess error if either
invocation fails, otherwise splitting both outputs into flag lists. -/
def pkgconfig (pc : PkgcOracle) (name : String) : Except CalledProcessError Package :=
  match pc.run "--cflags" name with
  | none => .error ⟨name⟩
  | some cflags =>
    match pc.run "--libs" name with
    | none => .error ⟨name⟩
    | some libs => .ok ⟨shlexSplit cflags, shlexSplit libs⟩

/-- `blosc_extension()` (setup.py lines 64-87): logs its banner, resolves the
mandatory external package `blosc` via `pkgconfig` (an error there
propagates), and builds one descriptor whose compile args append the blosc
cflags to `base_compile_args` and whose link args are the blosc libs. -/
def blosc_extension (h : Host) (pc : PkgcOracle) :
    List String × Except CalledProcessError (List Extension) :=
  (["setting up Blosc extension"],
   match pkgconfig pc "blosc" with
   | .error e => .error e
   | .ok blosc =>
     .ok [{ name := "numcodecs.blosc",
            sources := ["numcodecs/blosc.pyx"],
            define_macros := [],
            extra_compile_args := base_compile_args h ++ blosc.cflags,
            extra_link_args := blosc.libs }])

/-- The glob pattern for the architecture-specific zstd assembly sources
(setup.py lines 112 and 289). -/
def zstdAsmPat : String := "c-blosc/internal-complibs/zstd*/decompress/*amd64.S"

/-- `zstd_extension()` (setup.py lines 90-129): bundled zstd sources and
include dirs via glob, and — only when `cpuinfo.platform.machine()` is
`x86_64` — extra objects derived from each matched `*amd64.S` path by
`S[:-1] + 'o'` (drop the last character, append `o`). -/
def zstd_extension (h : Host) (fs : Fs) : List String × List Extension :=
  (["setting up Zstandard extension"],
   let zstd_sources :=
     glob fs "c-blosc/internal-complibs/zstd*/common/*.c"
     ++ glob fs "c-blosc/internal-complibs/zstd*/compress/*.c"
     ++ glob fs "c-blosc/internal-complibs/zstd*/decompress/*.c"
     ++ glob fs "c-blosc/internal-complibs/zstd*/dictBuilder/*.c"
   let include_dirs :=
     (glob fs "c-blosc/internal-complibs/zstd*").filter (fun d => fs.dirs.contains d)
     ++ (glob fs "c-blosc/internal-complibs/zstd*/*").filter (fun d => fs.dirs.contains d)
   let extra_objects :=
     if h.machine = "x86_64" then
       (glob fs zstdAsmPat).map (fun S => String.mk S.data.dropLast ++ "o")
     else []
   [{ name := "numcodecs.zstd",
      sources := ["numcodecs/zstd.pyx"] ++ zstd_sources,
      include_dirs := include_dirs,
      define_macros := [],
      extra_compile_args := base_compile_args h,
      extra_objects := extra_objects }])

/-- `lz4_extension()` (setup.py lines 132-157): bundled LZ4 sources and
include dirs via glob. -/
def lz4_extension (h : Host) (fs : Fs) : List String × List Extension :=
  (["setting up LZ4 extension"],
   let lz4_sources := glob fs "c-blosc/internal-complibs/lz4*/*.c"
   let include_dirs :=
     (glob fs "c-blosc/internal-complibs/lz4*").filter (fun d => fs.dirs.contains d)
     ++ ["numcodecs"]
   [{ name := "numcodecs.lz4",
      sources := ["numcodecs/lz4.pyx"] ++ lz4_sources,
      include_dirs := include_dirs,
      define_macros := [],
      extra_compile_args := base_compile_args h }])

/-- `vlen_extension()` (setup.py lines 160-184): include dirs are
`numcodecs` plus `numpy.get_include()`. -/
def vlen_extension (h : Host) : List String × List Extension :=
  (["setting up vlen extension"],
   [{ name := "numcodecs.vlen",
      sources := ["numcodecs/vlen.pyx"],
      include_dirs := ["numcodecs", h.numpyInclude],
      define_macros := [],
      extra_compile_args := base_compile_args h }])

/-- `fletcher_extension()` (setup.py lines 187-210). -/
def fletcher_extension (h : Host) : List String × List Extension :=
  (["setting up fletcher32 extension"],
   [{ name := "numcodecs.fletcher32",
      sources := ["numcodecs/fletcher32.pyx"],
      include_dirs := ["numcodecs"],
      define_macros := [],
      extra_compile_args := base_compile_args h }])

/-- `jenkins_extension()` (setup.py lines 213-236): the one component whose
`define_macros` carries `('CYTHON_TRACE', '1')`, appended unconditionally. -/
def jenkins_extension (h : Host) : List String × List Extension :=
  (["setting up jenkins extension"],
   [{ name := "numcodecs.jenkins",
      sources := ["numcodecs/jenkins.pyx"],
      include_dirs := ["numcodecs"],
      define_macros := [("CYTHON_TRACE", "1")],
      extra_compile_args := base_compile_args h }])

/-- `compat_extension()` (setup.py lines 239-255). -/
def compat_extension (h : Host) : List String × List Extension :=
  (["setting up compat extension"],
   [{ name := "numcodecs.compat_ext",
      sources := ["numcodecs/compat_ext.pyx"],
      extra_compile_args := base_compile_args h }])

/-- `shuffle_extension()` (setup.py lines 258-270). -/
def shuffle_extension (h : Host) : List String × List Extension :=
  (["setting up shuffle extension"],
   [{ name := "numcodecs._shuffle",
      sources := ["numcodecs/_shuffle.pyx"],
      extra_compile_args := base_compile_args h }])

/-- `ext_errors` (setup.py lines 273-276): the error classes that
`ve_build_ext.build_extension` converts into `BuildFailed`; on `win32` the
tuple additionally contains `IOError` and `ValueError`. -/
def ext_errors (platform : String) : List PyError :=
  if platform = "win32" then
    [.cCompilerError, .execError, .platformError, .ioError, .valueError]
  else
    [.cCompilerError, .execError, .platformError]

/-- The exception escaping a build-step method: either the script's own
`BuildFailed` (setup.py line 279) or an unconverted Python error. -/
inductive BuildExc where
  | BuildFailed
  | py (e : PyError)
deriving DecidableEq

/-- The compiler toolchain behind the wrapped standard machinery, as an
oracle: `compileAsm` is the outcome of `compiler.compile(S_files)` in
`ve_build_ext.run` (`none` = success, `some e` = the error class raised);
`buildExt` is the outcome of the wrapped `build_ext.build_extension` for the
extension of the given name. -/
structure Toolchain where
  compileAsm : List String → Option PyError
  buildExt : String → Option PyError

/-- `ve_build_ext.build_extension` (setup.py lines 300-305): runs the wrapped
per-extension build; an error in `ext_errors` is logged and re-raised as
`BuildFailed`, any other error propagates unchanged. -/
def ve_build_extension (tc : Toolchain) (platform : String) (ext : Extension) :
    Except BuildExc Unit :=
  match tc.buildExt ext.name with
  | none => .ok ()
  | some e => if e ∈ ext_errors platform then .error .BuildFailed else .error (.py e)

/-- Observable steps of a `ve_build_ext.run` invocation: precompilation of
one assembly source, or a successful build of one extension. -/
inductive BuildEvent where
  | precompiled (path : String)
  | built (extName : String)
deriving DecidableEq

/-- The serial extension loop of the wrapped standard build step
(`build_ext.run` → `build_extensions`, which calls the overridden
`build_extension` once per extension, in order): these extensions are not
marked `optional`, so an exception raised by `build_extension` propagates,
ending the loop.  Returns the successful-build events in order and the
escaping exception, if any. -/
def build_loop (tc : Toolchain) (platform : String) :
    List Extension → List BuildEvent × Option BuildExc
  | [] => ([], none)
  | ext :: rest =>
    match ve_build_extension tc platform ext with
    | .ok _ =>
      let r := build_loop tc platform rest
      (.built ext.name :: r.1, r.2)
    | .error e => ([], some e)

/-- The `except PlatformError` handler wrapped around the whole body of
`ve_build_ext.run` (setup.py lines 296-298): a `PlatformError` escaping the
body is re-raised as `BuildFailed`; everything else passes through. -/
def catchPlatformError (r : Option BuildExc) : Option BuildExc :=
  match r with
  | some (.py .platformError) => some .BuildFailed
  | r => r

/-- `ve_build_ext.run` (setup.py lines 286-298): when the machine is
`x86_64`, glob the `*amd64.S` assembly sources and compile them with a
customized compiler before running the wrapped standard build step; the
surrounding `try` converts a `PlatformError` from either part into
`BuildFailed`.  Returns the event trace in program order and the escaping
exception, if any. -/
def ve_run (tc : Toolchain) (h : Host) (fs : Fs) (exts : List Extension) :
    List BuildEvent × Option BuildExc :=
  if h.machine = "x86_64" then
    match tc.compileAsm (glob fs zstdAsmPat) with
    | some e => ([], some (if e = .platformError then .BuildFailed else .py e))
    | none =>
      let r := build_loop tc h.sysPlatform exts
      ((glob fs zstdAsmPat).map BuildEvent.precompiled ++ r.1, catchPlatformError r.2)
  else
    let r := build_loop tc h.sysPlatform exts
    (r.1, catchPlatformError r.2)

/-- The glob pattern of the derived object files removed by `Sclean.run`
(setup.py line 313). -/
def zstdObjPat : String := "c-blosc/internal-complibs/zstd*/decompress/*amd64.o"

/-- `os.remove(f)`: removes the path if it exists, raises (`FileNotFoundError`)
otherwise. -/
def os_remove (f : String) (entries : List String) : Except PyError (List String) :=
  if f ∈ entries then .ok (entries.erase f) else .error .ioError

/-- The `for f in o_files: os.remove(f)` loop of `Sclean.run`, removing the
listed files in order; the first failure propagates. -/
def removeFiles : List String → List String → Except PyError (List String)
  | [], entries => .ok entries
  | f :: rest, entries =>
    match os_remove f entries with
    | .ok entries2 => removeFiles rest entries2
    | .error e => .error e

/-- `Sclean.run` (setup.py lines 311-317): on `x86_64`, removes every
existing path matching the `*amd64.o` glob, then performs the wrapped
standard `clean.run` (which touches only the build directories, not the
modelled source-tree namespace, so it leaves `entries` unchanged). -/
def Sclean_run (machine : String) (fs : Fs) : Except PyError Fs :=
  if machine = "x86_64" then
    match removeFiles (glob fs zstdObjPat) fs.entries with
    | .ok entries2 => .ok ⟨entries2, fs.dirs⟩
    | .error e => .error e
  else
    .ok fs

/-- The value handed to `setup(...)` by `run_setup` (setup.py lines 338-341):
the extension-module list, and whether the custom command classes
(`build_ext=ve_build_ext`, `clean=Sclean`) were installed. -/
structure SetupCall where
  ext_modules : List Extension
  custom_cmdclass : Bool
deriving DecidableEq

/-- `run_setup(with_extensions)` (setup.py lines 320-341): with extensions,
evaluates the eight component builders in source order (blosc first; an
error from its `pkgconfig` call propagates immediately, before any later
builder runs), concatenates their descriptors, and installs the custom
command classes; without extensions, an empty module list and default
command classes.  Returns the info log alongside the outcome. -/
def run_setup (h : Host) (fs : Fs) (pc : PkgcOracle) (with_extensions : Bool) :
    List String × Except CalledProcessError SetupCall :=
  if with_extensions then
    match blosc_extension h pc with
    | (lb, .error e) => (lb, .error e)
    | (lb, .ok bexts) =>
      let z := zstd_extension h fs
      let l := lz4_extension h fs
      let c := compat_extension h
      let s := shuffle_extension h
      let v := vlen_extension h
      let f := fletcher_extension h
      let j := jenkins_extension h
      (lb ++ z.1 ++ l.1 ++ c.1 ++ s.1 ++ v.1 ++ f.1 ++ j.1,
       .ok ⟨bexts ++ z.2 ++ l.2 ++ c.2 ++ s.2 ++ v.2 ++ f.2 ++ j.2, true⟩)
  else
    ([], .ok ⟨[], false⟩)

/-- The `with_extensions` computation of `__main__` (setup.py lines 344-346):
native builds are bypassed when the interpreter is PyPy or
`DISABLE_NUMCODECS_CEXT` is in the environment. -/
def main_with_extensions (is_pypy : Bool) (environ : List String) : Bool :=
  !is_pypy && !(environ.contains "DISABLE_NUMCODECS_CEXT")

/-! ## Concrete fixtures used by witnesses and counterexamples -/

/-- Concrete host: both features detected, both disable overrides set,
POSIX, Linux, x86_64. -/
def hostC2 : Host :=
  ⟨["sse2", "avx2"], ["DISABLE_NUMCODECS_SSE2", "DISABLE_NUMCODECS_AVX2"],
   "posix", "linux", "x86_64", "np"⟩

/-- Concrete host: `CFLAGS` set, features detected, macOS. -/
def hostC3 : Host :=
  ⟨["sse2", "avx2"], ["CFLAGS"], "posix", "darwin", "x86_64", "np"⟩

/-- Concrete toolchain: every extension's build raises `IOError`. -/
def tcC10 : Toolchain :=
  ⟨fun _ => none, fun _ => some .ioError⟩

/-- Concrete extension descriptor for driver-level statements. -/
def extA : Extension :=
  { name := "numcodecs.a", sources := ["a.pyx"] }

/-- Second concrete extension descriptor for driver-level statements. -/
def extB : Extension :=
  { name := "numcodecs.b", sources := ["b.pyx"] }

/-- Toolchain in which the extension `numcodecs.a` fails with
`CCompilerError` and every other extension builds fine. -/
def tcC1 : Toolchain :=
  ⟨fun _ => none, fun n => if n = "numcodecs.a" then some .cCompilerError else none⟩

/-- Pkg-config oracle that always fails. -/
def pcFail : PkgcOracle := ⟨fun _ _ => none⟩

/-- Pkg-config oracle that always succeeds with empty output. -/
def pcOk : PkgcOracle := ⟨fun _ _ => some ""⟩

/-- Empty filesystem. -/
def fsEmpty : Fs := ⟨[], []⟩

/-- The setup call assembled on `hostC2` with an empty filesystem and a
succeeding pkg-config. -/
def scC9 : SetupCall :=
  ((run_setup hostC2 fsEmpty pcOk true).2.toOption).getD ⟨[], false⟩

/-- The log of that same assembly. -/
def logC9 : List String := (run_setup hostC2 fsEmpty pcOk true).1

/-- Concrete filesystem with one derived object file matching the cleanup
glob and one unrelated file. -/
def fsC8 : Fs :=
  ⟨["c-blosc/internal-complibs/zstd-1.5.0/decompress/huf_decompress_amd64.o",
    "numcodecs/zstd.pyx"], []⟩

/-- Concrete filesystem with one architecture-specific assembly source
matching the zstd glob and one unrelated file. -/
def fsC5 : Fs :=
  ⟨["c-blosc/internal-complibs/zstd-1.5.0/decompress/huf_decompress_amd64.S",
    "numcodecs/zstd.pyx"], []⟩

/-- Toolchain in which every compiler invocation succeeds. -/
def tcOk : Toolchain := ⟨fun _ => none, fun _ => none⟩

/-- Toolchain in which the assembly precompilation raises
`CCompilerError` (as `compiler.compile` does when the assembler fails) and
extension builds succeed. -/
def tcC7 : Toolchain := ⟨fun _ => some .cCompilerError, fun _ => none⟩

/-- Toolchain in which the assembly precompilation raises
`PlatformError`. -/
def tcPlat : Toolchain := ⟨fun _ => some .platformError, fun _ => none⟩

/-! ## Claim theorems -/

/-- C2: for every combination of CPU-detected features and environment
variables, if the disable override for a feature is set
(`DISABLE_NUMCODECS_SSE2`, resp. `DISABLE_NUMCODECS_AVX2`), then that
feature's compile flag (`-msse2`, resp. `-mavx2`) does not appear in the
computed `base_compile_args`, even when CPU introspection reports the
feature as present. -/
theorem C2_disable_override_excludes_flag (h : Host) :
    (disable_sse2 h = true → "-msse2" ∉ base_compile_args h) ∧
    (disable_avx2 h = true → "-mavx2" ∉ base_compile_args h) := by
  constructor <;> intro hd <;>
    simp only [base_compile_args, hd, List.mem_append, if_true] <;>
    split_ifs <;> simp_all

/-- Witness for C2 at `hostC2`. -/
theorem C2_disable_override_excludes_flag_witness :
    "-msse2" ∉ base_compile_args hostC2 ∧ "-mavx2" ∉ base_compile_args hostC2 :=
  ⟨(C2_disable_override_excludes_flag hostC2).1 (by decide),
   (C2_disable_override_excludes_flag hostC2).2 (by decide)⟩

/-- C3: if the environment defines `CFLAGS`, no capability-derived flag
(`-msse2`, `-mavx2`, `-mno-sse2`, `-mno-avx2`) appears in
`base_compile_args`, regardless of detected CPU features or disable
overrides; on macOS the `-stdlib=libc++` baseline flag is still appended. -/
theorem C3_cflags_suppresses_capability_flags (h : Host) (hc : have_cflags h = true) :
    (∀ f ∈ (["-msse2", "-mavx2", "-mno-sse2", "-mno-avx2"] : List String),
       f ∉ base_compile_args h) ∧
    (h.sysPlatform = "darwin" → "-stdlib=libc++" ∈ base_compile_args h) := by
  simp only [base_compile_args, hc, if_true]
  constructor
  · intro f hf
    fin_cases hf <;> split_ifs <;> simp_all
  · intro hd
    simp [hd]

/-- Witness for C3 at `hostC3`. -/
theorem C3_cflags_suppresses_capability_flags_witness :
    "-msse2" ∉ base_compile_args hostC3 ∧ "-stdlib=libc++" ∈ base_compile_args hostC3 :=
  ⟨(C3_cflags_suppresses_capability_flags hostC3 (by decide)).1 "-msse2" (by decide),
   (C3_cflags_suppresses_capability_flags hostC3 (by decide)).2 (by decide)⟩

/-- C10: the set of error classes converted to `BuildFailed` by the
per-component build step is platform-dependent: on `win32` it is
`CCompilerError`, `ExecError`, `PlatformError`, `IOError` and `ValueError`;
on every other platform only the first three — so an `IOError` or
`ValueError` during a component build becomes `BuildFailed` on `win32` but
propagates unconverted elsewhere. -/
theorem C10_ext_errors_platform_dependent :
    (ext_errors "win32" =
       [.cCompilerError, .execError, .platformError, .ioError, .valueError]) ∧
    (∀ p, p ≠ "win32" → ext_errors p = [.cCompilerError, .execError, .platformError]) ∧
    (∀ tc ext e, e = PyError.ioError ∨ e = PyError.valueError →
       tc.buildExt ext.name = some e →
       ve_build_extension tc "win32" ext = .error .BuildFailed) ∧
    (∀ tc ext p e, p ≠ "win32" → (e = PyError.ioError ∨ e = PyError.valueError) →
       tc.buildExt ext.name = some e →
       ve_build_extension tc p ext = .error (.py e)) := by
  refine ⟨by simp [ext_errors], fun p hp => by simp [ext_errors, hp], ?_, ?_⟩
  · intro tc ext e he hb
    rcases he with he | he <;>
      simp [ve_build_extension, hb, ext_errors, he]
  · intro tc ext p e hp he hb
    rcases he with he | he <;>
      simp [ve_build_extension, hb, ext_errors, hp, he]

/-- Witness for C10: an `IOError` is converted on `win32` and propagates on
`linux`. -/
theorem C10_ext_errors_platform_dependent_witness :
    ve_build_extension tcC10 "win32" extA = .error .BuildFailed ∧
    ve_build_extension tcC10 "linux" extA = .error (.py .ioError) :=
  ⟨C10_ext_errors_platform_dependent.2.2.1 tcC10 extA .ioError (Or.inl rfl) rfl,
   C10_ext_errors_platform_dependent.2.2.2 tcC10 extA "linux" .ioError (by decide)
     (Or.inl rfl) rfl⟩

/-- C4: when native builds are bypassed (PyPy, or `DISABLE_NUMCODECS_CEXT`
present), `run_setup` is invoked with `with_extensions` false and — for every
host, filesystem and pkg-config behavior alike — returns an empty
extension-module list without installing the custom command classes and
without invoking any component builder (the info log is empty and the
outcome ignores the pkg-config oracle entirely). -/
theorem C4_bypass_builds_nothing (h : Host) (fs : Fs) (pc : PkgcOracle)
    (is_pypy : Bool) (env : List String)
    (hb : is_pypy = true ∨ env.contains "DISABLE_NUMCODECS_CEXT" = true) :
    main_with_extensions is_pypy env = false ∧
    run_setup h fs pc (main_with_extensions is_pypy env) = ([], .ok ⟨[], false⟩) := by
  have hm : main_with_extensions is_pypy env = false := by
    rcases hb with h1 | h1
    · simp [main_with_extensions, h1]
    · unfold main_with_extensions
      rw [h1]
      simp
  exact ⟨hm, by rw [hm]; rfl⟩

/-- Witness for C4: PyPy interpreter, failing pkg-config, empty outcome. -/
theorem C4_bypass_builds_nothing_witness :
    run_setup hostC2 ⟨[], []⟩ pcFail (main_with_extensions true []) =
      ([], .ok ⟨[], false⟩) :=
  (C4_bypass_builds_nothing hostC2 ⟨[], []⟩ pcFail true [] (Or.inl rfl)).2

/-- C1 counterexample: with two descriptors of which the first raises
`CCompilerError` (a member of `ext_errors`), the driver does NOT record a
failure and continue — the converted `BuildFailed` escapes the loop
(`some .BuildFailed`, not `none`) and the second descriptor is never
built, so no outcome covering all components exists. -/
theorem C1_counterexample :
    PyError.cCompilerError ∈ ext_errors "linux" ∧
    build_loop tcC1 "linux" [extA, extB] = ([], some .BuildFailed) ∧
    BuildEvent.built "numcodecs.b" ∉ (build_loop tcC1 "linux" [extA, extB]).1 := by
  decide

/-- C1 (amended): when one component's build raises an error in
`ext_errors`, `ve_build_ext.build_extension` converts it to `BuildFailed` at
per-component granularity, but `BuildFailed` then propagates out of the
extension loop: the components before it are built, the failing one and
every later one produce no outcome, and the loop ends with the escaping
`BuildFailed`. -/
theorem C1_amended_buildfailed_aborts_rest (tc : Toolchain) (platform : String)
    (pre post : List Extension) (ext : Extension) (e : PyError)
    (hpre : ∀ x ∈ pre, tc.buildExt x.name = none)
    (he : tc.buildExt ext.name = some e) (hmem : e ∈ ext_errors platform) :
    build_loop tc platform (pre ++ ext :: post) =
      (pre.map (fun x => BuildEvent.built x.name), some .BuildFailed) := by
  induction pre with
  | nil => simp [build_loop, ve_build_extension, he, hmem]
  | cons x xs ih =>
    have hx : tc.buildExt x.name = none := hpre x (List.mem_cons_self x xs)
    have ih2 := ih (fun y hy => hpre y (List.mem_cons_of_mem x hy))
    simp [build_loop, ve_build_extension, hx, ih2]

/-- Witness for the amended C1: `numcodecs.b` builds, then the failure of
`numcodecs.a` escapes as `BuildFailed` with nothing built afterwards. -/
theorem C1_amended_buildfailed_aborts_rest_witness :
    build_loop tcC1 "linux" [extB, extA] =
      ([BuildEvent.built "numcodecs.b"], some .BuildFailed) :=
  C1_amended_buildfailed_aborts_rest tcC1 "linux" [extB] [] extA .cCompilerError
    (by decide) (by decide) (by decide)

/-- C6: if the pkg-config subprocess fails for the mandatory package
`blosc` (non-zero exit or absent tool), the resolution error propagates as
fatal out of `run_setup`: the log shows only the Blosc builder ran, no later
builder is invoked, and no descriptor list is produced. -/
theorem C6_blosc_resolution_fatal (h : Host) (fs : Fs) (pc : PkgcOracle)
    (err : CalledProcessError) (hf : pkgconfig pc "blosc" = .error err) :
    run_setup h fs pc true = (["setting up Blosc extension"], .error err) := by
  simp [run_setup, blosc_extension, hf]

/-- Witness for C6: with an always-failing pkg-config, `run_setup` with
extensions stops at the Blosc builder. -/
theorem C6_blosc_resolution_fatal_witness :
    run_setup hostC2 ⟨[], []⟩ pcFail true =
      (["setting up Blosc extension"], .error ⟨"blosc"⟩) :=
  C6_blosc_resolution_fatal hostC2 ⟨[], []⟩ pcFail ⟨"blosc"⟩ rfl

/-- C9: in any successful descriptor assembly, exactly one descriptor
carries the `('CYTHON_TRACE', '1')` macro — `numcodecs.jenkins` — whatever
the host capabilities, environment, architecture or filesystem. -/
theorem C9_only_jenkins_has_trace_macro (h : Host) (fs : Fs) (pc : PkgcOracle)
    (log : List String) (sc : SetupCall)
    (hr : run_setup h fs pc true = (log, .ok sc)) :
    (sc.ext_modules.filter
        (fun e => e.define_macros.contains ("CYTHON_TRACE", "1"))).map
        (fun e => e.name)
      = ["numcodecs.jenkins"] := by
  rcases hpkg : pkgconfig pc "blosc" with e | p
  · simp [run_setup, blosc_extension, hpkg] at hr
  · simp [run_setup, blosc_extension, hpkg] at hr
    rw [← hr.2]
    simp [zstd_extension, lz4_extension, compat_extension, shuffle_extension,
          vlen_extension, fletcher_extension, jenkins_extension, List.filter_append]

/-- Witness for C9 at a concrete host, filesystem and resolver. -/
theorem C9_only_jenkins_has_trace_macro_witness :
    (scC9.ext_modules.filter
        (fun e => e.define_macros.contains ("CYTHON_TRACE", "1"))).map
        (fun e => e.name)
      = ["numcodecs.jenkins"] :=
  C9_only_jenkins_has_trace_macro hostC2 fsEmpty pcOk logC9 scC9 (by rfl)

/-- Sequentially removing a duplicate-free list of existing files succeeds
and leaves exactly the files outside the list, in their original order. -/
theorem removeFiles_eq_filter (l : List String) (fs : List String)
    (hfs : fs.Nodup) (hl : l.Nodup) (hsub : ∀ f ∈ l, f ∈ fs) :
    removeFiles l fs = .ok (fs.filter (fun x => !(l.contains x))) := by
  induction l generalizing fs with
  | nil => simp [removeFiles]
  | cons f rest ih =>
    have hf : f ∈ fs := hsub f (List.mem_cons_self f rest)
    have hrsub : ∀ g ∈ rest, g ∈ fs.erase f := by
      intro g hg
      have hne : g ≠ f := by
        rintro rfl
        exact (List.nodup_cons.mp hl).1 hg
      exact (List.mem_erase_of_ne hne).mpr (hsub g (List.mem_cons_of_mem f hg))
    have hrec := ih (fs.erase f) (List.Nodup.erase f hfs) (List.nodup_cons.mp hl).2 hrsub
    simp only [removeFiles, os_remove, hf, if_true, hrec]
    rw [List.Nodup.erase_eq_filter hfs f, List.filter_filter]
    refine congrArg Except.ok (List.filter_congr ?_)
    intro x _
    show (!(rest.contains x) && (x != f)) = !((f :: rest).contains x)
    rw [List.contains_cons]
    cases hc : rest.contains x <;> cases he : x == f <;> simp [bne, hc, he]

/-- C8: on any architecture, running `Sclean.run` is safe and idempotent on
the modelled file namespace: the first run removes every existing path
matching the `*amd64.o` glob without raising (removal is driven by a glob
over existing files), and a second run finds no matching file and changes
nothing. -/
theorem C8_clean_idempotent (machine : String) (fs : Fs)
    (hnd : fs.entries.Nodup) :
    ∃ fs2, Sclean_run machine fs = .ok fs2 ∧ Sclean_run machine fs2 = .ok fs2 := by
  by_cases hm : machine = "x86_64"
  · subst hm
    have h1 : removeFiles (glob fs zstdObjPat) fs.entries =
        .ok (fs.entries.filter (fun x => !((glob fs zstdObjPat).contains x))) :=
      removeFiles_eq_filter _ _ hnd (List.Nodup.filter _ hnd)
        (fun f hf => List.mem_of_mem_filter hf)
    refine ⟨⟨fs.entries.filter (fun x => !((glob fs zstdObjPat).contains x)), fs.dirs⟩,
      ?_, ?_⟩
    · unfold Sclean_run
      rw [if_pos rfl, h1]
    · have hglob2 :
          glob ⟨fs.entries.filter (fun x => !((glob fs zstdObjPat).contains x)), fs.dirs⟩
            zstdObjPat = [] := by
        unfold glob
        rw [List.filter_filter]
        refine List.filter_eq_nil_iff.mpr ?_
        intro a ha
        cases hpm : pathMatch zstdObjPat a
        · simp [hpm]
        · have hmem : a ∈ List.filter (fun p => pathMatch zstdObjPat p) fs.entries :=
            List.mem_filter.mpr ⟨ha, hpm⟩
          simp [List.contains, List.elem_eq_true_of_mem hmem]
          exact ⟨ha, hpm⟩
      unfold Sclean_run
      rw [if_pos rfl, hglob2]
      rfl
  · exact ⟨fs, by simp [Sclean_run, hm], by simp [Sclean_run, hm]⟩

/-- Witness for C8 on `x86_64` with an existing derived object file. -/
theorem C8_clean_idempotent_witness :
    ∃ fs2, Sclean_run "x86_64" fsC8 = .ok fs2 ∧ Sclean_run "x86_64" fs2 = .ok fs2 :=
  C8_clean_idempotent "x86_64" fsC8 (by decide)

/-- A star-free segment pattern matches exactly itself. -/
theorem segMatch_nostar {ps : List Char} (h : '*' ∉ ps) :
    ∀ cs, segMatch ps cs = true ↔ ps = cs := by
  induction ps with
  | nil => intro cs; cases cs <;> simp [segMatch]
  | cons p pt ih =>
    have hp : p ≠ '*' := fun hh => h (hh ▸ List.mem_cons_self p pt)
    have hpt : '*' ∉ pt := fun hh => h (List.mem_cons_of_mem p hh)
    intro cs
    cases cs with
    | nil => simp [segMatch, hp]
    | cons c ct =>
      simp [segMatch, hp, ih hpt ct, List.cons.injEq]

/-- Matching a segment pattern that is a single star followed by a star-free
tail forces that tail as a suffix of the matched segment. -/
theorem segMatch_star_suffix {t cs : List Char} (hst : '*' ∉ t)
    (h : segMatch ('*' :: t) cs = true) : ∃ pre, cs = pre ++ t := by
  have h2 : (cs.tails.any fun s => segMatch t s) = true := by
    simpa [segMatch] using h
  rcases List.any_eq_true.mp h2 with ⟨s, hs, hmatch⟩
  rcases (List.mem_tails s cs).mp hs with ⟨pre, hpre⟩
  exact ⟨pre, by rw [← hpre, (segMatch_nostar hst s).mp hmatch]⟩

/-- Unfolding equation of `splitSlash` on a cons, once the split of the tail
is known. -/
theorem splitSlash_eq (c : Char) (cs : List Char) (seg : List Char)
    (rest : List (List Char)) (h : splitSlash cs = seg :: rest) :
    splitSlash (c :: cs) =
      if c = '/' then [] :: seg :: rest else (c :: seg) :: rest := by
  unfold splitSlash
  rw [h]

/-- Splitting a character list at separators never yields an empty segment
list. -/
theorem splitSlash_ne_nil (l : List Char) : splitSlash l ≠ [] := by
  cases l with
  | nil => simp [splitSlash]
  | cons c cs =>
    cases h : splitSlash cs with
    | nil =>
      unfold splitSlash
      rw [h]
      simp
    | cons seg rest =>
      rw [splitSlash_eq c cs seg rest h]
      by_cases hc : c = '/' <;> simp [hc]

/-- Rejoining the segments of a split recovers the original characters. -/
theorem joinSlash_splitSlash (l : List Char) : joinSlash (splitSlash l) = l := by
  induction l with
  | nil => rfl
  | cons c cs ih =>
    cases h : splitSlash cs with
    | nil => exact absurd h (splitSlash_ne_nil cs)
    | cons seg rest =>
      rw [h] at ih
      rw [splitSlash_eq c cs seg rest h]
      by_cases hc : c = '/'
      · rw [if_pos hc, hc]
        show '/' :: joinSlash (seg :: rest) = '/' :: cs
        rw [ih]
      · rw [if_neg hc]
        cases rest with
        | nil =>
          have ih2 : seg = cs := ih
          show c :: seg = c :: cs
          rw [ih2]
        | cons r2 rr =>
          have ih2 : seg ++ '/' :: joinSlash (r2 :: rr) = cs := ih
          show (c :: seg) ++ '/' :: joinSlash (r2 :: rr) = c :: cs
          rw [List.cons_append, ih2]


/-- The joined path ends with the last segment. -/
theorem joinSlash_suffix :
    ∀ (segs : List (List Char)) (lastSeg : List Char),
      segs.getLast? = some lastSeg → ∃ pre, joinSlash segs = pre ++ lastSeg := by
  intro segs
  induction segs with
  | nil => intro l hl; simp at hl
  | cons s rest ih =>
    intro lastSeg hl
    cases rest with
    | nil =>
      rw [List.getLast?_singleton, Option.some.injEq] at hl
      exact ⟨[], by simp [joinSlash, hl]⟩
    | cons s2 r2 =>
      rw [List.getLast?_cons_cons] at hl
      rcases ih lastSeg hl with ⟨pre, hpre⟩
      refine ⟨s ++ '/' :: pre, ?_⟩
      show s ++ '/' :: joinSlash (s2 :: r2) = (s ++ '/' :: pre) ++ lastSeg
      rw [hpre, List.append_assoc, List.cons_append]

/-- If two equal-length lists are pointwise related along their zip, their
last elements are related. -/
theorem zip_all_getLast {α β : Type} (f : α → β → Bool) :
    ∀ (l1 : List α) (l2 : List β) (x : α) (y : β),
      l1.length = l2.length →
      ((l1.zip l2).all fun z => f z.1 z.2) = true →
      l1.getLast? = some x → l2.getLast? = some y → f x y = true := by
  intro l1
  induction l1 with
  | nil => intro l2 x y _ _ hx; simp at hx
  | cons a t ih =>
    intro l2 x y hlen hall hx hy
    cases l2 with
    | nil => simp at hlen
    | cons b s =>
      rw [List.zip_cons_cons, List.all_cons, Bool.and_eq_true] at hall
      cases t with
      | nil =>
        cases s with
        | cons u v => simp at hlen
        | nil =>
          rw [List.getLast?_singleton, Option.some.injEq] at hx hy
          rw [← hx, ← hy]
          exact hall.1
      | cons a2 t2 =>
        cases s with
        | nil => simp at hlen
        | cons b2 s2 =>
          rw [List.getLast?_cons_cons] at hx hy
          exact ih (b2 :: s2) x y (by simpa using hlen) hall.2 hx hy

/-- Every path matched by the zstd assembly glob pattern ends in the literal
suffix `amd64.S`. -/
theorem pathMatch_asm_suffix {p : String} (h : pathMatch zstdAsmPat p = true) :
    ∃ pre, p.data = pre ++ "amd64.S".data := by
  unfold pathMatch at h
  rw [Bool.and_eq_true] at h
  obtain ⟨hlenb, hall⟩ := h
  have hlen : (splitSlash zstdAsmPat.data).length = (splitSlash p.data).length :=
    beq_iff_eq.mp hlenb
  have hpat : (splitSlash zstdAsmPat.data).getLast? = some ('*' :: "amd64.S".data) := by
    decide
  have hne : splitSlash p.data ≠ [] := splitSlash_ne_nil p.data
  obtain ⟨lastSeg, hlast⟩ : ∃ lastSeg, (splitSlash p.data).getLast? = some lastSeg := by
    cases hq : (splitSlash p.data).getLast? with
    | none => exact absurd (List.getLast?_eq_none_iff.mp hq) hne
    | some s => exact ⟨s, rfl⟩
  have hmatch : segMatch ('*' :: "amd64.S".data) lastSeg = true :=
    zip_all_getLast (fun a b => segMatch a b) _ _ _ _ hlen hall hpat hlast
  obtain ⟨pre1, hpre1⟩ := segMatch_star_suffix (by decide) hmatch
  obtain ⟨pre2, hpre2⟩ := joinSlash_suffix _ _ hlast
  refine ⟨pre2 ++ pre1, ?_⟩
  rw [← joinSlash_splitSlash p.data, hpre2, hpre1, List.append_assoc]

/-- The serial extension loop emits only successful-build events. -/
theorem build_loop_events (tc : Toolchain) (platform : String) :
    ∀ (exts : List Extension) (ev : BuildEvent),
      ev ∈ (build_loop tc platform exts).1 → ∃ n, ev = BuildEvent.built n := by
  intro exts
  induction exts with
  | nil => intro ev hev; simp [build_loop] at hev
  | cons e rest ih =>
    intro ev hev
    unfold build_loop at hev
    cases hbe : ve_build_extension tc platform e with
    | ok u =>
      rw [hbe] at hev
      simp only [List.mem_cons] at hev
      rcases hev with rfl | hev
      · exact ⟨e.name, rfl⟩
      · exact ih ev hev
    | error err =>
      rw [hbe] at hev
      simp at hev

/-- C5: on any machine other than `x86_64` the zstd descriptor's
`extra_objects` is empty and `ve_build_ext.run` precompiles nothing; on
`x86_64`, `extra_objects` is exactly the matched `*amd64.S` paths with the
trailing `S` replaced by `o` (each matched path provably ends in `amd64.S`),
and when the precompilation succeeds those assembly files are all compiled
before any extension build event occurs. -/
theorem C5_conditional_artifacts (h : Host) (fs : Fs) (tc : Toolchain)
    (exts : List Extension) :
    (h.machine ≠ "x86_64" →
       (∀ ext ∈ (zstd_extension h fs).2, ext.extra_objects = []) ∧
       (∀ s, BuildEvent.precompiled s ∉ (ve_run tc h fs exts).1)) ∧
    (h.machine = "x86_64" →
       (∀ ext ∈ (zstd_extension h fs).2,
          ext.extra_objects =
            (glob fs zstdAsmPat).map (fun S => String.mk S.data.dropLast ++ "o")) ∧
       (∀ p ∈ glob fs zstdAsmPat, ∃ pre,
          p.data = pre ++ "amd64.S".data ∧
          String.mk p.data.dropLast ++ "o" = String.mk (pre ++ "amd64.".data) ++ "o") ∧
       (tc.compileAsm (glob fs zstdAsmPat) = none →
          ∃ rest, (ve_run tc h fs exts).1 =
            (glob fs zstdAsmPat).map BuildEvent.precompiled ++ rest ∧
            ∀ ev ∈ rest, ∃ n, ev = BuildEvent.built n)) := by
  constructor
  · intro hm
    constructor
    · intro ext hext
      simp only [zstd_extension, List.mem_singleton] at hext
      subst hext
      simp [hm]
    · intro s hs
      have hs2 : BuildEvent.precompiled s ∈ (build_loop tc h.sysPlatform exts).1 := by
        simpa [ve_run, hm] using hs
      rcases build_loop_events tc h.sysPlatform exts _ hs2 with ⟨n, hn⟩
      exact BuildEvent.noConfusion hn
  · intro hm
    refine ⟨?_, ?_, ?_⟩
    · intro ext hext
      simp only [zstd_extension, List.mem_singleton] at hext
      subst hext
      simp [hm]
    · intro p hp
      have hpm : pathMatch zstdAsmPat p = true := (List.mem_filter.mp hp).2
      obtain ⟨pre, hpre⟩ := pathMatch_asm_suffix hpm
      have hsplit : "amd64.S".data = "amd64.".data ++ ['S'] := by decide
      refine ⟨pre, hpre, ?_⟩
      have hd : p.data.dropLast = pre ++ "amd64.".data := by
        rw [hpre, hsplit, ← List.append_assoc, List.dropLast_concat]
      rw [hd]
    · intro hcompile
      refine ⟨(build_loop tc h.sysPlatform exts).1, ?_,
        build_loop_events tc h.sysPlatform exts⟩
      simp [ve_run, hm, hcompile]

/-- Witness for C5 on `x86_64` with one matching assembly file and a
succeeding toolchain. -/
theorem C5_conditional_artifacts_witness :
    (∀ ext ∈ (zstd_extension hostC2 fsC5).2,
       ext.extra_objects =
         (glob fsC5 zstdAsmPat).map (fun S => String.mk S.data.dropLast ++ "o")) ∧
    (∃ rest, (ve_run tcOk hostC2 fsC5 []).1 =
       (glob fsC5 zstdAsmPat).map BuildEvent.precompiled ++ rest ∧
       ∀ ev ∈ rest, ∃ n, ev = BuildEvent.built n) :=
  ⟨((C5_conditional_artifacts hostC2 fsC5 tcOk []).2 rfl).1,
   ((C5_conditional_artifacts hostC2 fsC5 tcOk []).2 rfl).2.2 rfl⟩

/-- C7 counterexample: on `x86_64` the preliminary assembly precompilation
raising `CCompilerError` — a toolchain-class error, member of `ext_errors`
on every platform — is NOT converted to `BuildFailed`: `ve_run` propagates
the raw error, because its handler catches only `PlatformError`. -/
theorem C7_counterexample :
    PyError.cCompilerError ∈ ext_errors hostC2.sysPlatform ∧
    (ve_run tcC7 hostC2 fsC5 []).2 = some (.py .cCompilerError) ∧
    (ve_run tcC7 hostC2 fsC5 []).2 ≠ some .BuildFailed := by
  decide

/-- C7 (amended): the preliminary precompilation runs before the wrapped
standard build step — on failure no extension is built, on success the trace
is exactly the precompilation events followed by the extension-loop events —
and a `PlatformError` raised there is converted into the same `BuildFailed`
signal; but a toolchain error of any other class (e.g. `CCompilerError`)
propagates unconverted. -/
theorem C7_amended_platform_error_only (tc : Toolchain) (h : Host) (fs : Fs)
    (exts : List Extension) (hm : h.machine = "x86_64") :
    (tc.compileAsm (glob fs zstdAsmPat) = some .platformError →
       ve_run tc h fs exts = ([], some .BuildFailed)) ∧
    (∀ e, tc.compileAsm (glob fs zstdAsmPat) = some e → e ≠ .platformError →
       ve_run tc h fs exts = ([], some (.py e))) ∧
    (tc.compileAsm (glob fs zstdAsmPat) = none →
       (ve_run tc h fs exts).1 =
         (glob fs zstdAsmPat).map BuildEvent.precompiled ++
           (build_loop tc h.sysPlatform exts).1) := by
  refine ⟨?_, ?_, ?_⟩
  · intro hc
    simp [ve_run, hm, hc]
  · intro e hc hne
    simp [ve_run, hm, hc, hne]
  · intro hc
    simp [ve_run, hm, hc]

/-- Witness for the amended C7: a `PlatformError` in the precompilation
becomes `BuildFailed` with an empty event trace. -/
theorem C7_amended_platform_error_only_witness :
    ve_run tcPlat hostC2 fsC5 [] = ([], some .BuildFailed) :=
  (C7_amended_platform_error_only tcPlat hostC2 fsC5 [] rfl).1 rfl

end NumcodecsSetup
